import Mathlib

/-!
Shallow embedding of `src/main.py`, a Flask photo-gallery application backed by a
cloud object store (Google Cloud Storage) and a vision model (Gemini).

Modelling conventions:
* Python strings are Lean `String`s; helper functions (`pyLower`, `pyEndsWith`,
  `afterLastDot`, `splitextRoot`) reimplement the exact Python primitives used
  by the source (`str.lower`, `str.endswith`, `str.rsplit('.', 1)[1]`,
  `os.path.splitext` for POSIX paths).
* The Python `json` standard library is external to the repository; blob
  contents are therefore represented at the parse level: a text blob that is
  valid JSON is stored as its parsed value (`BlobContent.jsonText`), text that
  fails to parse as `BlobContent.invalidText`, and raw image bytes as
  `BlobContent.bytes`.  `dumps` / `loads` model `json.dumps` / `json.loads`
  together with the standard-library round-trip property
  `json.loads(json.dumps(d)) == d`.
* The object store (GCS bucket) is a list of named blobs with unique names in
  any real bucket; `put` overwrites the blob with the same name.  Store and AI
  calls are modelled on their non-throwing paths — the handlers' `except`
  branches for store failures are noted where relevant.
* JSON numbers are modelled as integers; no claim involves numeric values.
-/

namespace PhotoApp

/-- Parsed JSON values, as produced by Python's `json.loads`. -/
inductive Json where
  | null
  | bool (b : Bool)
  | num (n : Int)
  | str (s : String)
  | arr (elems : List Json)
  | obj (fields : List (String × Json))

/-- Key lookup in a parsed JSON object.  Python builds dicts from JSON text
with duplicate keys keeping the last occurrence, so lookup takes the last
binding of the key. -/
def getField (fields : List (String × Json)) (key : String) : Option Json :=
  (fields.reverse.find? (fun p => p.1 == key)).map (fun p => p.2)

/-- Python `d.get(key, default)` on a dict decoded from JSON. -/
def dictGetD (fields : List (String × Json)) (key : String) (default : Json) : Json :=
  (getField fields key).getD default

/-- Python `key in d` on a dict decoded from JSON. -/
def hasKey (fields : List (String × Json)) (key : String) : Bool :=
  fields.any (fun p => p.1 == key)

/-- Python truthiness (`bool(x)`) of a decoded JSON value. -/
def pyTruthy : Json → Bool
  | .null => false
  | .bool b => b
  | .num n => n != 0
  | .str s => !s.isEmpty
  | .arr xs => !xs.isEmpty
  | .obj fs => !fs.isEmpty

/-- Python `isinstance(x, dict)` on a decoded JSON value. -/
def isDict : Json → Bool
  | .obj _ => true
  | _ => false

/-- Python's `type(x).__name__` for decoded JSON values (used in the text of
an `AttributeError` raised by `x.get(...)` on a non-dict). -/
def pyTypeName : Json → String
  | .null => "NoneType"
  | .bool _ => "bool"
  | .num _ => "int"
  | .str _ => "str"
  | .arr _ => "list"
  | .obj _ => "dict"

/-- A single-quote character, used when reproducing Python message strings. -/
def sq : String := ⟨[Char.ofNat 39]⟩

/-- Python `str.lower()` (the source only ever lowercases ASCII filenames). -/
def pyLower (s : String) : String := ⟨s.data.map Char.toLower⟩

/-- Python `c in s` for a single character. -/
def pyContainsChar (s : String) (c : Char) : Bool := s.data.contains c

/-- Python `s.endswith(sfx)`. -/
def pyEndsWith (s sfx : String) : Bool :=
  sfx.data.reverse.isPrefixOf s.data.reverse

/-- Python `s.rsplit('.', 1)[1]`: the characters after the last dot (only used by the
source when `'.' in s` holds). -/
def afterLastDot (s : String) : String :=
  ⟨(s.data.reverse.takeWhile (fun c => c != '.')).reverse⟩

/-- Index of the last occurrence of `c`, starting the count at `i`. -/
def lastIdxAux (cs : List Char) (c : Char) (i : Nat) : Option Nat :=
  match cs with
  | [] => none
  | x :: rest =>
    match lastIdxAux rest c (i + 1) with
    | some j => some j
    | none => if x == c then some i else none

/-- Python `os.path.splitext(p)[0]` for POSIX paths: strip the extension starting at
the last dot, unless every character between the last slash and that dot is
itself a dot (Python treats a leading-dots name like `.bashrc` as having no
extension). -/
def splitextRoot (p : String) : String :=
  match lastIdxAux p.data '.' 0 with
  | none => p
  | some dotIndex =>
    let sepIndex : Int :=
      match lastIdxAux p.data '/' 0 with
      | none => -1
      | some k => (k : Int)
    let start : Nat := (sepIndex + 1).toNat
    if decide (sepIndex < (dotIndex : Int)) &&
        ((p.data.drop start).take (dotIndex - start)).any (fun c => c != '.')
    then ⟨p.data.take dotIndex⟩
    else p

/-- The set `ALLOWED_EXTENSIONS = {'png', 'jpg', 'jpeg', 'gif'}` (src/main.py line 21). -/
def ALLOWED_EXTENSIONS : List String := ["png", "jpg", "jpeg", "gif"]

/-- Function `allowed_file` (src/main.py lines 68-70):
`'.' in filename and filename.rsplit('.', 1)[1].lower() in ALLOWED_EXTENSIONS`. -/
def allowed_file (filename : String) : Bool :=
  pyContainsChar filename '.' &&
    ALLOWED_EXTENSIONS.contains (pyLower (afterLastDot filename))

/-- Content of a stored blob, at the abstraction level of the `json` library:
raw image bytes, text that parses as JSON (kept as its parsed value), or text
that does not parse as JSON. -/
inductive BlobContent where
  | bytes (data : List Nat)
  | jsonText (j : Json)
  | invalidText (s : String)

/-- Failure modes of `json.loads` as distinguished by the handlers' `except`
clauses: a `json.JSONDecodeError` versus any other exception. -/
inductive LoadError where
  | decodeError
  | otherError (msg : String)

/-- Call `json.loads(blob.download_as_string())`: succeeds exactly on blobs whose
text is valid JSON.  Image bytes fed to `json.loads` fail to parse. -/
def loads : BlobContent → Except LoadError Json
  | .jsonText j => .ok j
  | .invalidText _ => .error .decodeError
  | .bytes _ => .error .decodeError

/-- A stored blob: name (the key), content type metadata, and content. -/
structure GBlob where
  name : String
  contentType : Option String
  content : BlobContent

/-- The bucket state: its blobs, in listing order. -/
abbrev Store := List GBlob

/-- Call `bucket.blob(name)` followed by existence/download: the blob with the given
name, if any. -/
def getBlob? (store : Store) (name : String) : Option GBlob :=
  store.find? (fun b => b.name == name)

/-- Call `blob.exists()`. -/
def blobExists (store : Store) (name : String) : Bool :=
  (getBlob? store name).isSome

/-- Call `blob.upload_from_string(content, content_type=ct)`: overwrites any blob
with the same name (GCS last-writer-wins put). -/
def putBlob (store : Store) (name : String) (ct : Option String)
    (c : BlobContent) : Store :=
  store.filter (fun b => b.name != name) ++ [⟨name, ct, c⟩]

/-- The possible behaviours of the environment inside
`process_image_with_gemini` (src/main.py lines 72-117), one per code path:
* `modelUnavailable` — startup left `model = None`;
* `raises msg` — `Image.open` or `model.generate_content` raised (message `msg`);
* `emptyResponse` — `response` or `response.text` was falsy;
* `textJson raw j` — `response.text = raw`, and the cleaned text
  (markdown fences stripped) parses as the JSON value `j`;
* `textNotJson raw` — `response.text = raw` and the cleaned text is not valid
  JSON (`json.JSONDecodeError`);
* `innerError raw msg` — some other exception (message `msg`) was raised while
  handling the response text `raw`. -/
inductive GeminiOutcome where
  | modelUnavailable
  | raises (msg : String)
  | emptyResponse
  | textJson (raw : String) (j : Json)
  | textNotJson (raw : String)
  | innerError (raw : String) (msg : String)

/-- Helper for a two-field `{title, description}` JSON object. -/
def mkRecord (title descr : String) : Json :=
  .obj [("title", .str title), ("description", .str descr)]

/-- Function `process_image_with_gemini` (src/main.py lines 72-117), as a function of
the environment's behaviour.  Every path returns a dict with `title` and
`description`; the function never raises. -/
def process_image_with_gemini (outcome : GeminiOutcome) : Json :=
  match outcome with
  | .modelUnavailable => mkRecord "Error" "AI model not available."
  | .raises msg => mkRecord "Error" ("Error during AI processing: " ++ msg)
  | .emptyResponse => mkRecord "Untitled" "No description generated."
  | .textJson _ j =>
    match j with
    | .obj fields =>
      if hasKey fields "title" && hasKey fields "description" then .obj fields
      else mkRecord "Processing Error" "Received invalid format from AI."
    | _ => mkRecord "Processing Error" "Received invalid format from AI."
  | .textNotJson raw =>
    mkRecord "Processing Error"
      ("Could not parse AI response: " ++ raw.take 100 ++ "...")
  | .innerError _ msg =>
    mkRecord "Processing Error" ("Error processing AI response: " ++ msg)

/-- An uploaded file as Flask presents it: `file.filename`, the bytes read by
`file.read()`, and `file.mimetype`. -/
structure UploadedFile where
  filename : String
  content : List Nat
  mimetype : String

/-- A `flash(message, category)` call. -/
structure FlashMsg where
  message : String
  category : String

/-- Result of the upload handler: the store after any writes, the flashed
message, and the redirect target (every path in `upload_file` redirects to
`url_for('index')`, i.e. `/`). -/
structure UploadResult where
  store : Store
  flash : FlashMsg
  redirectTo : String

/-- The metadata key computed inside `upload_file` (src/main.py lines 220-221):
`base_name = os.path.splitext(filename)[0]; json_filename = base_name + "_description.json"`. -/
def uploadJsonFilename (filename : String) : String :=
  splitextRoot filename ++ "_description.json"

/-- Handler `upload_file` (src/main.py lines 179-243), on the nominal path where the
store client is configured.  `file?` is `request.files['file']` if the `file`
part is present.  The store operations are modelled on their success paths, so
the handler's outer `except` branch (flash an error, redirect) is not taken. -/
def upload_file (store : Store) (file? : Option UploadedFile)
    (ai : GeminiOutcome) : UploadResult :=
  match file? with
  | none => ⟨store, ⟨"No file part in the request.", "warning"⟩, "/"⟩
  | some file =>
    if file.filename == "" then
      ⟨store, ⟨"No file selected for upload.", "warning"⟩, "/"⟩
    else if allowed_file file.filename then
      let filename := file.filename
      let store1 := putBlob store filename (some file.mimetype)
        (.bytes file.content)
      let description_data := process_image_with_gemini ai
      if pyTruthy description_data && isDict description_data then
        let json_filename := uploadJsonFilename filename
        let store2 := putBlob store1 json_filename (some "application/json")
          (.jsonText description_data)
        ⟨store2,
          ⟨"File " ++ sq ++ filename ++ sq ++
            " uploaded and processed successfully!", "success"⟩, "/"⟩
      else
        ⟨store1,
          ⟨"File " ++ sq ++ filename ++ sq ++
            " uploaded, but AI processing failed. Description might be missing or incorrect.",
            "warning"⟩, "/"⟩
    else
      ⟨store, ⟨"Invalid file type. Allowed types: png, jpg, jpeg, gif",
        "warning"⟩, "/"⟩

/-- The image-candidate test of the gallery handler (src/main.py line 132):
`b.name.lower().endswith(tuple(ALLOWED_EXTENSIONS))` — a bare suffix match on
the lowercased name, with no dot required. -/
def isImageCandidate (name : String) : Bool :=
  ALLOWED_EXTENSIONS.any (fun ext => pyEndsWith (pyLower name) ext)

/-- The description-candidate dictionary of the gallery handler (src/main.py
line 136): blobs whose lowercased name ends in `_description.json`, keyed by
their (original-case) name. -/
def descriptionBlobs (blobs : Store) : List GBlob :=
  blobs.filter (fun b => pyEndsWith (pyLower b.name) "_description.json")

/-- Lookup in a Python dict comprehension `{b.name: b for b in ...}`: later
entries overwrite earlier ones, so the last blob with the key wins. -/
def dictLookupLast (blobs : List GBlob) (key : String) : Option GBlob :=
  blobs.reverse.find? (fun b => b.name == key)

/-- The metadata key computed inside the gallery loop (src/main.py lines
141-142). -/
def galleryDescFilename (imgName : String) : String :=
  splitextRoot imgName ++ "_description.json"

/-- The body of the gallery loop (src/main.py lines 140-164): the `title` and
`description` locals computed for one image blob, given the description
dictionary.  A present-but-unparsable record hits the `json.JSONDecodeError`
branch; a record that parses to a non-dict makes `desc_json.get` raise
`AttributeError`, caught by the generic `except` branch; in both cases `title`
keeps its initial value `'Untitled'`. -/
def galleryRecord (descBlobs : List GBlob) (imgName : String) : Json × Json :=
  let desc_filename := galleryDescFilename imgName
  match dictLookupLast descBlobs desc_filename with
  | none => (.str "Untitled", .str "No description available")
  | some desc_blob =>
    match loads desc_blob.content with
    | .ok (.obj fields) =>
      (dictGetD fields "title" (.str "Untitled"),
        dictGetD fields "description" (.str "No description available"))
    | .ok _ => (.str "Untitled", .str "Error loading description.")
    | .error .decodeError =>
      (.str "Untitled", .str "Error loading description (invalid format).")
    | .error (.otherError _) =>
      (.str "Untitled", .str "Error loading description.")

/-- One entry of the gallery page's `image_data` (src/main.py lines 166-170):
only `filename` and `title` are rendered. -/
structure GalleryEntry where
  filename : String
  title : Json

/-- Handler `index` (src/main.py lines 120-176), on the nominal path where the store
client is configured and listing succeeds: one entry per image candidate, in
listing order. -/
def index (store : Store) : List GalleryEntry :=
  let image_files := store.filter (fun b => isImageCandidate b.name)
  let description_blobs := descriptionBlobs store
  image_files.map (fun b =>
    ⟨b.name, (galleryRecord description_blobs b.name).1⟩)

/-- The metadata key computed inside `view_image_details` (src/main.py lines
257-258). -/
def detailJsonFilename (filename : String) : String :=
  splitextRoot filename ++ "_description.json"

/-- The rendered detail page (src/main.py lines 283-287). -/
structure DetailPage where
  title : Json
  description : Json
  image_url : String
  filename : String

/-- Handler `view_image_details` (src/main.py lines 246-287), on the nominal path
where the store client is configured and downloads succeed.  `title` starts as
`'Error'` and `description` as `'Could not load description.'`; a missing
record yields `'Untitled'` / `'No description file found.'`; an unparsable
record hits the `json.JSONDecodeError` branch (title keeps `'Error'`); a
record parsing to a non-dict makes `.get` raise `AttributeError`, caught by
the generic `except` branch. -/
def view_image_details (store : Store) (filename : String) : DetailPage :=
  let json_filename := detailJsonFilename filename
  let image_url := "/image/" ++ filename
  match getBlob? store json_filename with
  | none =>
    ⟨.str "Untitled", .str "No description file found.", image_url, filename⟩
  | some description_blob =>
    match loads description_blob.content with
    | .ok (.obj fields) =>
      ⟨dictGetD fields "title" (.str "Untitled"),
        dictGetD fields "description" (.str "No description available."),
        image_url, filename⟩
    | .ok j =>
      ⟨.str "Error",
        .str ("Error retrieving description: " ++ sq ++ pyTypeName j ++ sq ++
          " object has no attribute " ++ sq ++ "get" ++ sq),
        image_url, filename⟩
    | .error .decodeError =>
      ⟨.str "Error", .str "Error: Description file has invalid format.",
        image_url, filename⟩
    | .error (.otherError msg) =>
      ⟨.str "Error", .str ("Error retrieving description: " ++ msg),
        image_url, filename⟩

/-- Python `x or default` on an optional content type: `None` and the empty
string are both falsy. -/
def pyOrDefault (ct : Option String) (default : String) : String :=
  match ct with
  | none => default
  | some s => if s.isEmpty then default else s

/-- Response of the image-serving handler: a 404, or `send_file` with the
blob's content, the response mimetype, and the suggested download name. -/
inductive ImageResponse where
  | notFound
  | file (content : BlobContent) (mimetype : String) (download_name : String)

/-- Handler `get_image_file` (src/main.py lines 291-315), on the nominal path where
the store client is configured and the download succeeds. -/
def get_image_file (store : Store) (filename : String) : ImageResponse :=
  match getBlob? store filename with
  | none => .notFound
  | some blob =>
    .file blob.content (pyOrDefault blob.contentType "application/octet-stream")
      filename

/-- The metadata key computed inside `get_description_json` (src/main.py lines
328-329). -/
def apiJsonFilename (filename : String) : String :=
  splitextRoot filename ++ "_description.json"

/-- Handler `get_description_json` (src/main.py lines 321-342), on the nominal path
where the store client is configured and the download succeeds: the response
body (a JSON value) and its HTTP status. -/
def get_description_json (store : Store) (filename : String) : Json × Nat :=
  let json_filename := apiJsonFilename filename
  match getBlob? store json_filename with
  | none => (.obj [("error", .str "Description not found.")], 404)
  | some blob =>
    match loads blob.content with
    | .ok j => (j, 200)
    | .error .decodeError =>
      (.obj [("error", .str "Invalid description format.")], 500)
    | .error (.otherError msg) =>
      (.obj [("error", .str ("Error retrieving description: " ++ msg))], 500)

/-- The Naming Convention of spec §4.1, written from the spec's words:
`metadataKey(imageKey) = stripExtension(imageKey) + "_description.json"`. -/
def metadataKey (imageKey : String) : String :=
  splitextRoot imageKey ++ "_description.json"

/-- The `title` field of a decoded record, if it is a dict that has one. -/
def titleOf (j : Json) : Option Json :=
  match j with
  | .obj fields => getField fields "title"
  | _ => none

/-- The environment outcomes that count as failures of description
generation: everything except a response whose cleaned text parses to a dict
containing both required fields. -/
def geminiFailed : GeminiOutcome → Bool
  | .textJson _ (.obj fields) =>
    !(hasKey fields "title" && hasKey fields "description")
  | _ => true

/-- Example store: one image whose metadata record is present but not valid
JSON. -/
def exampleStoreBadJson : Store :=
  [⟨"cat.png", some "image/png", .bytes [0]⟩,
   ⟨"cat_description.json", some "application/json", .invalidText "not json"⟩]

/-- Example store: two images, the first with an unparsable metadata record,
the second with a well-formed one. -/
def exampleStoreMixed : Store :=
  [⟨"a.png", some "image/png", .bytes [0]⟩,
   ⟨"a_description.json", some "application/json", .invalidText "oops"⟩,
   ⟨"b.jpg", some "image/jpeg", .bytes [1]⟩,
   ⟨"b_description.json", some "application/json",
     .jsonText (mkRecord "B" "bee")⟩]

/-! ### Helper lemmas about the string primitives -/

theorem string_data_append (a b : String) : (a ++ b).data = a.data ++ b.data :=
  rfl

/-- Whatever the base name, a key built by appending `_description.json` has
`json` after its last dot. -/
theorem afterLastDot_append (x : String) :
    afterLastDot (x ++ "_description.json") = "json" := by
  apply String.ext
  show ((x ++ "_description.json").data.reverse.takeWhile
      (fun c => c != '.')).reverse = "json".data
  rw [string_data_append, List.reverse_append, List.takeWhile_append,
    if_neg (by decide)]
  decide

/-- A key built by appending `_description.json` always passes the gallery's
description-candidate test. -/
theorem pyEndsWith_lower_suffix (y : String) :
    pyEndsWith (pyLower (y ++ "_description.json")) "_description.json" = true := by
  show ("_description.json".data.reverse).isPrefixOf
      (((y ++ "_description.json").data.map Char.toLower).reverse) = true
  rw [string_data_append, List.map_append, List.reverse_append]
  have hfix : "_description.json".data.map Char.toLower =
      "_description.json".data := by decide
  rw [hfix]
  simp [ List.isPrefixOf_iff_prefix]

/-- A filename accepted by `allowed_file` can never itself be of the form
`y ++ "_description.json"`: its extension would be `json`, which is not in
the allow-set. -/
theorem allowed_file_ne_descKey (f y : String) (h : allowed_file f = true) :
    f ≠ y ++ "_description.json" := by
  intro he
  rw [he] at h
  have h2 := (Bool.and_eq_true _ _ |>.mp h).2
  rw [afterLastDot_append] at h2
  have h3 : pyLower "json" = "json" := by decide
  rw [h3] at h2
  exact absurd h2 (by decide)

/-! ### Helper lemmas about the store -/

theorem getBlob?_putBlob_self (store : Store) (n : String) (ct : Option String)
    (c : BlobContent) : getBlob? (putBlob store n ct c) n = some ⟨n, ct, c⟩ := by
  unfold getBlob? putBlob
  rw [List.find?_append]
  have h1 : (store.filter fun b => b.name != n).find? (fun b => b.name == n)
      = none := by
    rw [List.find?_eq_none]
    intro x hx
    have hne := (List.mem_filter.1 hx).2
    simp only [bne_iff_ne, ne_eq] at hne
    simp [hne]
  rw [h1]
  simp

theorem getBlob?_putBlob_ne (store : Store) (n : String) (ct : Option String)
    (c : BlobContent) (m : String) (h : m ≠ n) :
    getBlob? (putBlob store n ct c) m = getBlob? store m := by
  unfold getBlob? putBlob
  rw [List.find?_append]
  have h2 : List.find? (fun b => b.name == m) [(⟨n, ct, c⟩ : GBlob)] = none := by
    simp [Ne.symm h]
  have h3 : (store.filter fun b => b.name != n).find? (fun b => b.name == m)
      = store.find? (fun b => b.name == m) := by
    rw [List.find?_filter]
    congr 1
    funext b
    by_cases hb : b.name = m
    · subst hb
      simp [h]
    · simp [hb]
  rw [h2, h3, Option.or_none]

/-! ### Reverse lookup agrees with forward lookup on duplicate-free stores -/

/-- On a store whose blob names are pairwise distinct (the invariant of a real
bucket), searching from the back finds the same blob as searching from the
front. -/
theorem find?_reverse_of_nodup (l : Store) (key : String)
    (h : (l.map GBlob.name).Nodup) :
    l.reverse.find? (fun b => b.name == key) =
      l.find? (fun b => b.name == key) := by
  induction l with
  | nil => rfl
  | cons b t ih =>
    rw [List.map_cons, List.nodup_cons] at h
    obtain ⟨hb, ht⟩ := h
    rw [List.reverse_cons, List.find?_append]
    by_cases hk : b.name = key
    · have hnone : t.find? (fun x => x.name == key) = none := by
        rw [List.find?_eq_none]
        intro x hx
        have hxk : x.name ≠ key := by
          intro hc
          apply hb
          rw [hk, ← hc]
          exact List.mem_map_of_mem GBlob.name hx
        simp [hxk]
      have hnone' : t.reverse.find? (fun x => x.name == key) = none := by
        rw [List.find?_eq_none] at hnone ⊢
        intro x hx
        exact hnone x (List.mem_reverse.1 hx)
      rw [hnone', Option.none_or]
      simp [hk]
    · have hone : List.find? (fun x => x.name == key) [b] = none := by
        simp [hk]
      rw [hone, Option.or_none, ih ht]
      simp [hk]

/-- On a duplicate-free store, the gallery's dictionary lookup of a metadata
key of the form `y ++ "_description.json"` agrees with a direct blob lookup:
such a key always passes the dictionary's suffix filter. -/
theorem dictLookupLast_eq_getBlob? (store : Store) (y : String)
    (h : (store.map GBlob.name).Nodup) :
    dictLookupLast (descriptionBlobs store) (y ++ "_description.json") =
      getBlob? store (y ++ "_description.json") := by
  unfold dictLookupLast descriptionBlobs getBlob?
  have hnd : ((store.filter fun b =>
      pyEndsWith (pyLower b.name) "_description.json").map GBlob.name).Nodup := by
    exact ((List.filter_sublist store).map GBlob.name).nodup h
  rw [find?_reverse_of_nodup _ _ hnd, List.find?_filter]
  congr 1
  funext b
  by_cases hb : b.name = y ++ "_description.json"
  · simp [hb, pyEndsWith_lower_suffix]
  · simp [hb]

/-! ### The Gemini wrapper always yields a well-formed record -/

/-- Every path of `process_image_with_gemini` returns a dict containing both a
`title` and a `description` key. -/
theorem process_image_with_gemini_fields (o : GeminiOutcome) :
    ∃ fields, process_image_with_gemini o = .obj fields ∧
      hasKey fields "title" = true ∧ hasKey fields "description" = true := by
  cases o with
  | modelUnavailable => refine ⟨_, rfl, ?_, ?_⟩ <;> rfl
  | raises msg => refine ⟨_, rfl, ?_, ?_⟩ <;> rfl
  | emptyResponse => refine ⟨_, rfl, ?_, ?_⟩ <;> rfl
  | textNotJson raw => refine ⟨_, rfl, ?_, ?_⟩ <;> rfl
  | innerError raw msg => refine ⟨_, rfl, ?_, ?_⟩ <;> rfl
  | textJson raw j =>
    cases j with
    | obj fields =>
      by_cases hk : (hasKey fields "title" && hasKey fields "description") = true
      · refine ⟨fields, ?_, ?_, ?_⟩
        · simp [process_image_with_gemini, hk]
        · exact (Bool.and_eq_true _ _ |>.mp hk).1
        · exact (Bool.and_eq_true _ _ |>.mp hk).2
      · refine ⟨[("title", .str "Processing Error"),
          ("description", .str "Received invalid format from AI.")], ?_, ?_, ?_⟩
        · simp [process_image_with_gemini, hk, mkRecord]
        · rfl
        · rfl
    | null => refine ⟨_, rfl, ?_, ?_⟩ <;> rfl
    | bool b => refine ⟨_, rfl, ?_, ?_⟩ <;> rfl
    | num n => refine ⟨_, rfl, ?_, ?_⟩ <;> rfl
    | str s => refine ⟨_, rfl, ?_, ?_⟩ <;> rfl
    | arr xs => refine ⟨_, rfl, ?_, ?_⟩ <;> rfl

/-- A dict with a `title` key is non-empty, hence truthy in Python. -/
theorem pyTruthy_of_hasKey (fields : List (String × Json))
    (h : hasKey fields "title" = true) : pyTruthy (.obj fields) = true := by
  cases fields with
  | nil => exact absurd h (by decide)
  | cons p t => rfl

/-- On a validated filename the upload handler always takes the success
branch: both store writes happen and a success message is flashed. -/
theorem upload_file_success_eq (store : Store) (file : UploadedFile)
    (o : GeminiOutcome) (h : allowed_file file.filename = true) :
    upload_file store (some file) o =
      ⟨putBlob (putBlob store file.filename (some file.mimetype)
            (.bytes file.content))
          (uploadJsonFilename file.filename) (some "application/json")
          (.jsonText (process_image_with_gemini o)),
        ⟨"File " ++ sq ++ file.filename ++ sq ++
          " uploaded and processed successfully!", "success"⟩, "/"⟩ := by
  obtain ⟨fields, hp, ht, hd⟩ := process_image_with_gemini_fields o
  have htr : pyTruthy (process_image_with_gemini o) = true := by
    rw [hp]; exact pyTruthy_of_hasKey fields ht
  have hdict : isDict (process_image_with_gemini o) = true := by rw [hp]; rfl
  have hne : file.filename ≠ "" := by
    intro hc; rw [hc] at h; exact absurd h (by decide)
  unfold upload_file
  simp [hne, h, htr, hdict]

/-- The store component of a successful upload. -/
theorem upload_file_success_store (store : Store) (file : UploadedFile)
    (o : GeminiOutcome) (h : allowed_file file.filename = true) :
    (upload_file store (some file) o).store =
      putBlob (putBlob store file.filename (some file.mimetype)
          (.bytes file.content))
        (uploadJsonFilename file.filename) (some "application/json")
        (.jsonText (process_image_with_gemini o)) := by
  rw [upload_file_success_eq store file o h]

/-- The flash component of a successful upload. -/
theorem upload_file_success_flash (store : Store) (file : UploadedFile)
    (o : GeminiOutcome) (h : allowed_file file.filename = true) :
    (upload_file store (some file) o).flash =
      ⟨"File " ++ sq ++ file.filename ++ sq ++
        " uploaded and processed successfully!", "success"⟩ := by
  rw [upload_file_success_eq store file o h]

/-! ### The claims -/

/-- C9: every handler (upload, gallery, detail, metadata API) derives the
metadata key for an image key `k` as exactly
`stripExtension(k) ++ "_description.json"` — a literal concatenation, with no
escaping of underscores or pre-existing suffixes. -/
theorem metadata_key_agreement (k : String) :
    uploadJsonFilename k = metadataKey k ∧
    galleryDescFilename k = metadataKey k ∧
    detailJsonFilename k = metadataKey k ∧
    apiJsonFilename k = metadataKey k ∧
    metadataKey k = splitextRoot k ++ "_description.json" :=
  ⟨rfl, rfl, rfl, rfl, rfl⟩

/-- C7 counterexample: the gallery classifies the blob named `topng` as an
image candidate (its entry appears in the gallery) even though `allowed_file`
rejects `topng` — its name has no `.`-separated extension; the gallery's test
is a bare suffix match that needs no dot. -/
theorem gallery_candidate_no_dot_cex :
    (index [⟨"topng", none, .bytes []⟩]).map GalleryEntry.filename = ["topng"] ∧
    allowed_file "topng" = false := by
  exact ⟨rfl, by decide⟩

/-- C7 (amended): the gallery classifies a blob as an image candidate iff its
lowercased name ends with one of the letters `png`, `jpg`, `jpeg`, `gif` as a
bare suffix (no dot separator required), and as a metadata candidate iff its
lowercased name ends with `_description.json`; the gallery page has exactly
one entry per image candidate, in listing order. -/
theorem gallery_partition_by_suffix (store : Store) (b : GBlob) :
    ((index store).map GalleryEntry.filename =
      (store.filter fun x => isImageCandidate x.name).map GBlob.name) ∧
    ((b ∈ store.filter fun x => isImageCandidate x.name) ↔
      b ∈ store ∧ ∃ ext ∈ ALLOWED_EXTENSIONS,
        pyEndsWith (pyLower b.name) ext = true) ∧
    (b ∈ descriptionBlobs store ↔
      b ∈ store ∧ pyEndsWith (pyLower b.name) "_description.json" = true) := by
  refine ⟨?_, ?_, ?_⟩
  · unfold index
    rw [List.map_map]
    rfl
  · rw [List.mem_filter]
    simp [isImageCandidate, List.any_eq_true]
  · unfold descriptionBlobs
    rw [List.mem_filter]

/-- C8: the image-serving handler returns a not-found response exactly when no
blob with the requested key exists; when one exists it returns the stored
content with the stored content type (falling back to
`application/octet-stream` when the stored content type is `None` or empty),
suggesting the original filename as download name. -/
theorem image_serving_spec (store : Store) (filename : String) :
    (get_image_file store filename = .notFound ↔
      blobExists store filename = false) ∧
    ∀ b, getBlob? store filename = some b →
      get_image_file store filename =
        .file b.content (pyOrDefault b.contentType "application/octet-stream")
          filename := by
  unfold get_image_file blobExists
  cases h : getBlob? store filename with
  | none => simp [h]
  | some b => simp [h]

/-- Witness for C8 at a concrete store. -/
theorem image_serving_spec_witness :
    getBlob? [⟨"cat.png", some "image/png", .bytes [7]⟩] "cat.png" =
      some ⟨"cat.png", some "image/png", .bytes [7]⟩ ∧
    get_image_file [⟨"cat.png", some "image/png", .bytes [7]⟩] "cat.png" =
      .file (.bytes [7]) "image/png" "cat.png" :=
  ⟨rfl, (image_serving_spec [⟨"cat.png", some "image/png", .bytes [7]⟩]
    "cat.png").2 ⟨"cat.png", some "image/png", .bytes [7]⟩ rfl⟩

/-- C3: whatever the AI client does, `process_image_with_gemini` returns a
record with both a `title` and a `description`; in every failure case the
title is one of the fixed placeholders `Untitled`, `Processing Error`,
`Error`. -/
theorem gemini_record_always_well_formed (o : GeminiOutcome) :
    (∃ fields, process_image_with_gemini o = .obj fields ∧
      hasKey fields "title" = true ∧ hasKey fields "description" = true) ∧
    (geminiFailed o = true →
      ∃ t, titleOf (process_image_with_gemini o) = some (.str t) ∧
        t ∈ (["Untitled", "Processing Error", "Error"] : List String)) := by
  refine ⟨process_image_with_gemini_fields o, ?_⟩
  intro hf
  cases o with
  | modelUnavailable => exact ⟨"Error", rfl, by decide⟩
  | raises msg => exact ⟨"Error", rfl, by decide⟩
  | emptyResponse => exact ⟨"Untitled", rfl, by decide⟩
  | textNotJson raw => exact ⟨"Processing Error", rfl, by decide⟩
  | innerError raw msg => exact ⟨"Processing Error", rfl, by decide⟩
  | textJson raw j =>
    cases j with
    | obj fields =>
      have hf' : (!(hasKey fields "title" && hasKey fields "description"))
          = true := hf
      have hkf : (hasKey fields "title" && hasKey fields "description")
          = false := by
        cases hx : (hasKey fields "title" && hasKey fields "description") with
        | false => rfl
        | true => rw [hx] at hf'; exact absurd hf' (by decide)
      have hp : process_image_with_gemini (.textJson raw (.obj fields)) =
          mkRecord "Processing Error" "Received invalid format from AI." := by
        simp [process_image_with_gemini, hkf]
      exact ⟨"Processing Error", by rw [hp]; rfl, by decide⟩
    | null => exact ⟨"Processing Error", rfl, by decide⟩
    | bool b => exact ⟨"Processing Error", rfl, by decide⟩
    | num n => exact ⟨"Processing Error", rfl, by decide⟩
    | str s => exact ⟨"Processing Error", rfl, by decide⟩
    | arr xs => exact ⟨"Processing Error", rfl, by decide⟩

/-- Witness for C3 at a concrete failure outcome. -/
theorem gemini_record_always_well_formed_witness :
    geminiFailed .modelUnavailable = true ∧
    ∃ t, titleOf (process_image_with_gemini .modelUnavailable) =
        some (.str t) ∧
      t ∈ (["Untitled", "Processing Error", "Error"] : List String) :=
  ⟨rfl, (gemini_record_always_well_formed .modelUnavailable).2 rfl⟩

/-- C2: an upload whose filename is empty or fails the extension check leaves
the store untouched, flashes a warning, and redirects to the gallery. -/
theorem invalid_upload_writes_nothing (store : Store) (file : UploadedFile)
    (o : GeminiOutcome)
    (h : file.filename = "" ∨ allowed_file file.filename = false) :
    (upload_file store (some file) o).store = store ∧
    (upload_file store (some file) o).flash.category = "warning" ∧
    (upload_file store (some file) o).redirectTo = "/" := by
  unfold upload_file
  rcases h with h | h
  · simp [h]
  · by_cases he : file.filename = ""
    · simp [he]
    · simp [he, h]

/-- Witness for C2: uploading a file named `topng` (no dot-separated
extension) writes nothing and warns. -/
theorem invalid_upload_writes_nothing_witness :
    (("topng" : String) = "" ∨ allowed_file "topng" = false) ∧
    ((upload_file [] (some ⟨"topng", [], "image/png"⟩) .emptyResponse).store
        = [] ∧
      (upload_file [] (some ⟨"topng", [], "image/png"⟩)
          .emptyResponse).flash.category = "warning" ∧
      (upload_file [] (some ⟨"topng", [], "image/png"⟩)
          .emptyResponse).redirectTo = "/") :=
  ⟨Or.inr (by decide),
    invalid_upload_writes_nothing [] ⟨"topng", [], "image/png"⟩ .emptyResponse
      (Or.inr (by decide))⟩

/-- C1: after an upload with a validated filename, the image bytes sit under
exactly the original filename and a metadata blob sits at
`stripExtension(filename) ++ "_description.json"` whose content is a JSON
object with both a `title` and a `description` field. -/
theorem upload_persists_image_and_metadata (store : Store)
    (file : UploadedFile) (o : GeminiOutcome)
    (h : allowed_file file.filename = true) :
    getBlob? (upload_file store (some file) o).store file.filename =
      some ⟨file.filename, some file.mimetype, .bytes file.content⟩ ∧
    ∃ fields,
      getBlob? (upload_file store (some file) o).store
          (metadataKey file.filename) =
        some ⟨metadataKey file.filename, some "application/json",
          .jsonText (.obj fields)⟩ ∧
      hasKey fields "title" = true ∧ hasKey fields "description" = true := by
  obtain ⟨fields, hp, ht, hd⟩ := process_image_with_gemini_fields o
  have hneq : file.filename ≠ uploadJsonFilename file.filename :=
    allowed_file_ne_descKey file.filename (splitextRoot file.filename) h
  rw [upload_file_success_store store file o h]
  constructor
  · rw [getBlob?_putBlob_ne _ _ _ _ _ hneq]
    exact getBlob?_putBlob_self _ _ _ _
  · refine ⟨fields, ?_, ht, hd⟩
    rw [hp]
    exact getBlob?_putBlob_self _ _ _ _

/-- Witness for C1 at a concrete upload. -/
theorem upload_persists_image_and_metadata_witness :
    allowed_file "cat.png" = true ∧
    (getBlob? (upload_file [] (some ⟨"cat.png", [1], "image/png"⟩)
          .emptyResponse).store "cat.png" =
        some ⟨"cat.png", some "image/png", .bytes [1]⟩ ∧
      ∃ fields,
        getBlob? (upload_file [] (some ⟨"cat.png", [1], "image/png"⟩)
              .emptyResponse).store (metadataKey "cat.png") =
          some ⟨metadataKey "cat.png", some "application/json",
            .jsonText (.obj fields)⟩ ∧
        hasKey fields "title" = true ∧ hasKey fields "description" = true) :=
  ⟨by decide,
    upload_persists_image_and_metadata [] ⟨"cat.png", [1], "image/png"⟩
      .emptyResponse (by decide)⟩

/-- C10: `process_image_with_gemini` always returns a non-empty dict, so the
upload handler's guard `if description_data and isinstance(description_data,
dict)` always holds: whenever the image write succeeds the metadata write is
attempted, and the `AI processing failed` warning branch is unreachable. -/
theorem gemini_guard_unreachable_warning (o : GeminiOutcome) :
    (pyTruthy (process_image_with_gemini o) &&
      isDict (process_image_with_gemini o)) = true ∧
    ∀ (store : Store) (file : UploadedFile),
      allowed_file file.filename = true →
        (upload_file store (some file) o).flash.category = "success" ∧
        blobExists (upload_file store (some file) o).store
          (metadataKey file.filename) = true := by
  obtain ⟨fields, hp, ht, hd⟩ := process_image_with_gemini_fields o
  refine ⟨?_, ?_⟩
  · rw [hp]
    exact Bool.and_eq_true _ _ |>.mpr ⟨pyTruthy_of_hasKey fields ht, rfl⟩
  · intro store file hf
    refine ⟨?_, ?_⟩
    · rw [upload_file_success_flash store file o hf]
    · unfold blobExists
      rw [upload_file_success_store store file o hf,
        show metadataKey file.filename = uploadJsonFilename file.filename
          from rfl, getBlob?_putBlob_self]
      rfl

/-- Witness for C10 at a concrete upload. -/
theorem gemini_guard_unreachable_warning_witness :
    allowed_file "dog.gif" = true ∧
    (upload_file [] (some ⟨"dog.gif", [2], "image/gif"⟩)
        .modelUnavailable).flash.category = "success" ∧
    blobExists (upload_file [] (some ⟨"dog.gif", [2], "image/gif"⟩)
        .modelUnavailable).store (metadataKey "dog.gif") = true :=
  ⟨by decide,
    (gemini_guard_unreachable_warning .modelUnavailable).2 []
      ⟨"dog.gif", [2], "image/gif"⟩ (by decide)⟩

/-- C5: writing the record `{"title": T, "description": D}` through the upload
handler's serialization and reading it back through the detail handler or the
metadata API yields exactly `T` and `D`. -/
theorem metadata_roundtrip (store : Store) (file : UploadedFile)
    (T D raw : String) (h : allowed_file file.filename = true) :
    (view_image_details
        (upload_file store (some file) (.textJson raw (mkRecord T D))).store
        file.filename).title = .str T ∧
    (view_image_details
        (upload_file store (some file) (.textJson raw (mkRecord T D))).store
        file.filename).description = .str D ∧
    get_description_json
        (upload_file store (some file) (.textJson raw (mkRecord T D))).store
        file.filename = (mkRecord T D, 200) := by
  have hp : process_image_with_gemini (.textJson raw (mkRecord T D)) =
      mkRecord T D := rfl
  rw [upload_file_success_store store file _ h, hp]
  have hg : getBlob?
      (putBlob (putBlob store file.filename (some file.mimetype)
          (.bytes file.content))
        (uploadJsonFilename file.filename) (some "application/json")
        (.jsonText (mkRecord T D)))
      (uploadJsonFilename file.filename) =
      some ⟨uploadJsonFilename file.filename, some "application/json",
        .jsonText (mkRecord T D)⟩ :=
    getBlob?_putBlob_self _ _ _ _
  refine ⟨?_, ?_, ?_⟩
  · simp only [view_image_details]
    rw [show detailJsonFilename file.filename =
      uploadJsonFilename file.filename from rfl, hg]
    rfl
  · simp only [view_image_details]
    rw [show detailJsonFilename file.filename =
      uploadJsonFilename file.filename from rfl, hg]
    rfl
  · simp only [get_description_json]
    rw [show apiJsonFilename file.filename =
      uploadJsonFilename file.filename from rfl, hg]
    rfl

/-- Witness for C5 at a concrete upload. -/
theorem metadata_roundtrip_witness :
    allowed_file "cat.jpeg" = true ∧
    ((view_image_details
        (upload_file [] (some ⟨"cat.jpeg", [3], "image/jpeg"⟩)
          (.textJson "{}" (mkRecord "A Cat" "A cat photo."))).store
        "cat.jpeg").title = .str "A Cat" ∧
    (view_image_details
        (upload_file [] (some ⟨"cat.jpeg", [3], "image/jpeg"⟩)
          (.textJson "{}" (mkRecord "A Cat" "A cat photo."))).store
        "cat.jpeg").description = .str "A cat photo." ∧
    get_description_json
        (upload_file [] (some ⟨"cat.jpeg", [3], "image/jpeg"⟩)
          (.textJson "{}" (mkRecord "A Cat" "A cat photo."))).store
        "cat.jpeg" = (mkRecord "A Cat" "A cat photo.", 200)) :=
  ⟨by decide,
    metadata_roundtrip [] ⟨"cat.jpeg", [3], "image/jpeg"⟩ "A Cat"
      "A cat photo." "{}" (by decide)⟩

/-- C4: the gallery handler is a total function (it never raises); when some
image's metadata record is present but not valid JSON, that image's loop
computes the placeholder title and the fixed error description, its entry
still appears (with the placeholder title), and the page still carries one
entry per image candidate. -/
theorem gallery_degrades_on_invalid_metadata (store : Store) (img : GBlob)
    (bn : String) (bct : Option String) (s : String)
    (himg : img ∈ store) (hcand : isImageCandidate img.name = true)
    (hb : dictLookupLast (descriptionBlobs store)
      (galleryDescFilename img.name) = some ⟨bn, bct, .invalidText s⟩) :
    galleryRecord (descriptionBlobs store) img.name =
      (.str "Untitled", .str "Error loading description (invalid format).") ∧
    (⟨img.name, .str "Untitled"⟩ : GalleryEntry) ∈ index store ∧
    (index store).map GalleryEntry.filename =
      (store.filter fun x => isImageCandidate x.name).map GBlob.name := by
  have hrec : galleryRecord (descriptionBlobs store) img.name =
      (.str "Untitled", .str "Error loading description (invalid format).") := by
    simp only [galleryRecord]
    rw [hb]
    rfl
  refine ⟨hrec, ?_, ?_⟩
  · simp only [index, List.mem_map]
    exact ⟨img, List.mem_filter.2 ⟨himg, hcand⟩, by rw [hrec]⟩
  · simp only [index]
    rw [List.map_map]
    rfl

/-- Witness for C4 on a concrete two-image store. -/
theorem gallery_degrades_on_invalid_metadata_witness :
    ((⟨"a.png", some "image/png", .bytes [0]⟩ : GBlob) ∈ exampleStoreMixed ∧
      isImageCandidate "a.png" = true ∧
      dictLookupLast (descriptionBlobs exampleStoreMixed)
          (galleryDescFilename "a.png") =
        some ⟨"a_description.json", some "application/json",
          .invalidText "oops"⟩) ∧
    (⟨"a.png", .str "Untitled"⟩ : GalleryEntry) ∈ index exampleStoreMixed ∧
    (index exampleStoreMixed).map GalleryEntry.filename = ["a.png", "b.jpg"] :=
  ⟨⟨List.mem_cons_self _ _, rfl, rfl⟩,
    (gallery_degrades_on_invalid_metadata exampleStoreMixed
      ⟨"a.png", some "image/png", .bytes [0]⟩ "a_description.json"
      (some "application/json") "oops" (List.mem_cons_self _ _) rfl
      rfl).2.1,
    rfl⟩

/-- C6 counterexample: on a store whose metadata record for `cat.png` is
present but not valid JSON, the detail handler's title is `Error` (its
initial value, never reset in the `JSONDecodeError` branch) while the gallery
entry's title is `Untitled` — the two handlers do **not** compute the same
title in this state. -/
theorem detail_gallery_title_differ_cex :
    (view_image_details exampleStoreBadJson "cat.png").title = .str "Error" ∧
    index exampleStoreBadJson = [⟨"cat.png", .str "Untitled"⟩] ∧
    Json.str "Error" ≠ Json.str "Untitled" := by
  refine ⟨rfl, rfl, ?_⟩
  intro hc
  injection hc with hc
  exact absurd hc (by decide)

/-- C6 (amended): on a store with duplicate-free blob names, the detail
handler's title equals the gallery's title for the same image whenever the
metadata record is absent, or present and parsed as a JSON dict; when the
record is present but malformed (or parses to a non-dict) the detail handler
shows `Error` while the gallery shows `Untitled`. -/
theorem detail_gallery_title_agree (store : Store) (img : String)
    (hnd : (store.map GBlob.name).Nodup)
    (h : getBlob? store (metadataKey img) = none ∨
      ∃ b fields, getBlob? store (metadataKey img) = some b ∧
        loads b.content = .ok (.obj fields)) :
    (view_image_details store img).title =
      (galleryRecord (descriptionBlobs store) img).1 := by
  have hdict := dictLookupLast_eq_getBlob? store (splitextRoot img) hnd
  simp only [metadataKey] at h
  simp only [view_image_details, galleryRecord, detailJsonFilename,
    galleryDescFilename]
  rw [hdict]
  rcases h with h | ⟨b, fields, hb, hl⟩
  · rw [h]
  · obtain ⟨bn, bct, bc⟩ := b
    cases bc with
    | jsonText j =>
      have hj : j = .obj fields := by
        have hl' : Except.ok (ε := LoadError) j = .ok (.obj fields) := hl
        injection hl'
      subst hj
      rw [hb]
      rfl
    | bytes d => simp [loads] at hl
    | invalidText t => simp [loads] at hl

/-- Witness for the amended C6 on a concrete store with no metadata record. -/
theorem detail_gallery_title_agree_witness :
    ((([⟨"cat.png", some "image/png", .bytes [0]⟩] : Store).map
        GBlob.name).Nodup ∧
      (getBlob? [⟨"cat.png", some "image/png", .bytes [0]⟩]
          (metadataKey "cat.png") = none ∨
        ∃ b fields,
          getBlob? [⟨"cat.png", some "image/png", .bytes [0]⟩]
              (metadataKey "cat.png") = some b ∧
            loads b.content = .ok (.obj fields))) ∧
    (view_image_details [⟨"cat.png", some "image/png", .bytes [0]⟩]
        "cat.png").title =
      (galleryRecord
        (descriptionBlobs [⟨"cat.png", some "image/png", .bytes [0]⟩])
        "cat.png").1 :=
  ⟨⟨by decide, Or.inl rfl⟩,
    detail_gallery_title_agree [⟨"cat.png", some "image/png", .bytes [0]⟩]
      "cat.png" (by decide) (Or.inl rfl)⟩

end PhotoApp
